import Mathlib

/-!
Verification of the hunittest test-execution engine against its
natural-language specification.

The definitions below are a shallow embedding of the Python sources:
  * `hunittest/stopwatch.py` (class `StopWatch`),
  * `hunittest/unittestresultlib.py` (`Status`, `StatusCounters`, the
    result mixin stack `BaseResult`/`Failfast`/`RunProgress`/
    `StatusTracker`/`ErrSuccTracker`/`CaptureStdio`, and the two
    aggregate result classes `HTestResult` and `HTestResultServer`),
  * `hunittest/runner.py` (`run_monoproc_tests`, `run_concurrent_tests`),
  * `hunittest/cli.py` (`reported_collect`).

Python time instants (`datetime.utcnow()` readings) are modelled as
integers (e.g. microseconds since the epoch); `timedelta` values become
integer differences.  Python attributes that may be absent, or be `None`,
are modelled with `Option`.  Python methods that can raise are modelled
as returning the post-state paired with an optional exception.
-/

namespace Hunittest

/-- `Status` enumeration from `unittestresultlib.py` (class `Status`). -/
inductive Status where
  | pass
  | fail
  | error
  | skip
  | xfail
  | xpass
  | running
  | stop
deriving DecidableEq, Repr

/-- `Status.is_erroneous`: `self is FAIL or self is ERROR or self is XPASS`. -/
def Status.is_erroneous (s : Status) : Bool :=
  s == .fail || s == .error || s == .xpass

/-- The statuses yielded by `Status.stopped()`: every status except
`RUNNING` and `STOP`. -/
def Status.stoppedList : List Status :=
  [.pass, .fail, .error, .skip, .xfail, .xpass]

/-- A terminal outcome recorded for a test.  Every outcome callback of
`BaseResult` (`addSuccess`, `addFailure`, `addError`, `addSkip`,
`addExpectedFailure`, `addUnexpectedSuccess`, `addSubTest`) calls
`addOutcome` with one of the stopped statuses, so outcomes range over
exactly those. -/
inductive Outcome where
  | pass
  | fail
  | error
  | skip
  | xfail
  | xpass
deriving DecidableEq, Repr

/-- The `Status` value an `Outcome` stands for. -/
def Outcome.toStatus : Outcome → Status
  | .pass => .pass
  | .fail => .fail
  | .error => .error
  | .skip => .skip
  | .xfail => .xfail
  | .xpass => .xpass

/-- `Status.is_erroneous` on a terminal outcome. -/
def Outcome.is_erroneous (o : Outcome) : Bool :=
  o.toStatus.is_erroneous

/-- `StatusCounters`: one `<status>_count` attribute per stopped status
(`StatusCounters.__init__` creates exactly those, all zero). -/
structure StatusCounters where
  pass_count : Nat
  fail_count : Nat
  error_count : Nat
  skip_count : Nat
  xfail_count : Nat
  xpass_count : Nat
deriving DecidableEq, Repr

/-- `StatusCounters.__init__`: every stopped-status counter set to 0. -/
def StatusCounters.init : StatusCounters :=
  ⟨0, 0, 0, 0, 0, 0⟩

/-- `StatusCounters.get` for a stopped status (attribute `<status>_count`). -/
def StatusCounters.get (c : StatusCounters) : Outcome → Nat
  | .pass => c.pass_count
  | .fail => c.fail_count
  | .error => c.error_count
  | .skip => c.skip_count
  | .xfail => c.xfail_count
  | .xpass => c.xpass_count

/-- `StatusCounters.inc(status)`: increment the counter of the given
stopped status by one. -/
def StatusCounters.inc (c : StatusCounters) : Outcome → StatusCounters
  | .pass => { c with pass_count := c.pass_count + 1 }
  | .fail => { c with fail_count := c.fail_count + 1 }
  | .error => { c with error_count := c.error_count + 1 }
  | .skip => { c with skip_count := c.skip_count + 1 }
  | .xfail => { c with xfail_count := c.xfail_count + 1 }
  | .xpass => { c with xpass_count := c.xpass_count + 1 }

/-- `StatusCounters.is_successful`: the Python chained comparison
`self.fail_count == self.error_count == self.xpass_count == 0`. -/
def StatusCounters.is_successful (c : StatusCounters) : Bool :=
  c.fail_count == c.error_count
    && c.error_count == c.xpass_count
    && c.xpass_count == 0

/-- Sum of all six stopped-status counters. -/
def StatusCounters.total (c : StatusCounters) : Nat :=
  c.pass_count + c.fail_count + c.error_count
    + c.skip_count + c.xfail_count + c.xpass_count

/-! ## StopWatch (`hunittest/stopwatch.py`)

`StopWatch` reads the clock with `datetime.utcnow()`, the system (UTC)
wall clock.  Each clock read is modelled as an integer instant supplied
to the operation (`now`); a system clock adjustment between two reads
simply makes a later read smaller or larger than the previous one, so
no monotonicity is assumed on the supplied instants. -/

/-- Exceptions a `StopWatch` method can raise. -/
inductive SWError where
  /-- `RuntimeError("stopwatch already started")` -/
  | alreadyStarted
  /-- `RuntimeError("stopwatch not started")` -/
  | notStarted
  /-- `AttributeError` from reading a never-assigned attribute. -/
  | attributeError
  /-- `TypeError` from subtracting `None`. -/
  | typeError
deriving DecidableEq, Repr

/-- The attributes of a `StopWatch` object.  `none` on the four
`Option Int` fields models Python `None`; `_splits_count = none` models
the attribute not existing at all (it is only ever assigned by
`start()`). -/
structure StopWatch where
  _started_at : Option Int
  _last_split_time : Option Int
  _last_split_at : Option Int
  _total_split_time : Option Int
  _tick_count : Nat
  _splits_count : Option Nat
deriving DecidableEq, Repr

namespace StopWatch

/-- `StopWatch.reset`: assigns `_started_at`, `_last_split_time`,
`_last_split_at`, `_total_split_time` to `None` and `_tick_count` to 0.
It does not touch `_splits_count`. -/
def reset (s : StopWatch) : StopWatch :=
  { s with _started_at := none, _last_split_time := none,
           _last_split_at := none, _total_split_time := none,
           _tick_count := 0 }

/-- `StopWatch.__init__`: a fresh object (no attributes) on which
`reset()` is called, so `_splits_count` does not exist yet. -/
def init : StopWatch :=
  { _started_at := none, _last_split_time := none, _last_split_at := none,
    _total_split_time := none, _tick_count := 0, _splits_count := none }

/-- `StopWatch.is_started`: `self._started_at is not None`. -/
def is_started (s : StopWatch) : Bool :=
  s._started_at.isSome

/-- `StopWatch.start()` with `now` the value read from
`datetime.utcnow()`.  Raises if already started (before any mutation);
otherwise records the start instant and initializes the split fields. -/
def start (s : StopWatch) (now : Int) : StopWatch × Option SWError :=
  if s.is_started then (s, some .alreadyStarted)
  else
    let s' := { s with _started_at := some now, _last_split_at := some now,
                       _last_split_time := none, _total_split_time := none,
                       _splits_count := some 0 }
    (s', none)

/-- `StopWatch.split()` with `now` the value read from
`datetime.utcnow()`.  Mirrors the statement order of the source:
the started check first (raising before any mutation), then
`_last_split_time = now - _last_split_at`, `_last_split_at = now`,
`_splits_count += 1`, and the `_total_split_time` accumulation. -/
def split (s : StopWatch) (now : Int) : StopWatch × Option SWError :=
  if !s.is_started then (s, some .notStarted)
  else
    match s._last_split_at with
    | none => (s, some .typeError)
    | some a =>
      match s._splits_count with
      | none =>
        -- `self._splits_count += 1` raises AttributeError after the two
        -- assignments to `_last_split_time` and `_last_split_at`.
        let s1 := { s with _last_split_time := some (now - a),
                           _last_split_at := some now }
        (s1, some .attributeError)
      | some c =>
        let s' := { s with _last_split_time := some (now - a),
                           _last_split_at := some now,
                           _splits_count := some (c + 1),
                           _total_split_time :=
                             some (match s._total_split_time with
                                   | none => now - a
                                   | some t => t + (now - a)) }
        (s', none)

/-- Property `StopWatch.splits_count`: reads `self._splits_count`,
raising `AttributeError` when that attribute was never assigned. -/
def splits_count (s : StopWatch) : Except SWError Nat :=
  match s._splits_count with
  | none => .error .attributeError
  | some v => .ok v

/-- Property `StopWatch.last_split_time`: returns `_last_split_time`
(possibly `None`). -/
def last_split_time (s : StopWatch) : Option Int :=
  s._last_split_time

/-- Property `StopWatch.total_split_time`: `_total_split_time` when
started (possibly `None`), `timedelta(0)` otherwise. -/
def total_split_time (s : StopWatch) : Option Int :=
  if s.is_started then s._total_split_time else some 0

/-- Property `StopWatch.total_time` with `now` the value read from
`datetime.utcnow()`: `now - _started_at` when started, `timedelta(0)`
otherwise. -/
def total_time (s : StopWatch) (now : Int) : Int :=
  match s._started_at with
  | some t0 => now - t0
  | none => 0

/-- `split()` applied successively at the given instants, stopping at
the first exception (which would propagate in Python). -/
def splitMany (s : StopWatch) (ts : List Int) : StopWatch × Option SWError :=
  match ts with
  | [] => (s, none)
  | t :: rest =>
    match s.split t with
    | (s', none) => splitMany s' rest
    | (s', some e) => (s', some e)

end StopWatch

end Hunittest

namespace Hunittest

/-- Well-formedness that every `StopWatch` reachable through the public
API satisfies: once started, `_last_split_at` and `_splits_count` have
been assigned (`start()` sets both together with `_started_at`). -/
def StopWatch.WF (s : StopWatch) : Prop :=
  s.is_started = true →
    (s._last_split_at.isSome = true ∧ s._splits_count.isSome = true)

/-- An operation on a `StopWatch` other than `start()`:
`reset()` or `split()` at some instant. -/
inductive NonStartOp where
  | reset
  | split (t : Int)
deriving DecidableEq, Repr

/-- Apply a non-`start` operation; a raising `split()` leaves the state
it reached when the exception fired. -/
def applyNonStartOp (s : StopWatch) : NonStartOp → StopWatch
  | .reset => s.reset
  | .split t => (s.split t).1

/-- Invariant carried along a run of `split()`s whose clock reads are
non-decreasing: the stopwatch stays started at `b`, its last split
instant is `a ≥ b`, and all recorded durations are non-negative. -/
def StopWatch.Nonneg (b a : Int) (s : StopWatch) : Prop :=
  s._started_at = some b ∧ s._last_split_at = some a ∧ b ≤ a ∧
  s._splits_count.isSome = true ∧
  (∀ v, s._last_split_time = some v → 0 ≤ v) ∧
  (∀ v, s._total_split_time = some v → 0 ≤ v)

/-! ## Result mixin stack (`hunittest/unittestresultlib.py`) -/

/-- A Python value stored in `ErrSuccTracker`'s sets: either a test-name
string, or the function object `get_test_name` — which ends up in the
success set because `ErrSuccTracker.addOutcome` executes
`self._succeed_test_specs.add(get_test_name)`, passing the function
itself instead of the `test_name` computed on the previous line. -/
inductive PyObj where
  | str (s : String)
  | getTestNameFunc
deriving DecidableEq

/-- The mixin-stack state shared by `HTestResult` (single-process) and
`HTestResultServer` (scheduler side): `BaseResult._should_stop`,
`Failfast._failfast`, `RunProgress._tests_run` and `_total_tests`,
`StatusTracker.status_counters`, and `ErrSuccTracker`'s two sets.  The
printer, the stopwatches and the capture buffers never feed back into
these fields; they are modelled separately. -/
structure ResultState where
  should_stop : Bool
  failfast : Bool
  tests_run : Nat
  total_tests : Nat
  status_counters : StatusCounters
  error_test_specs : Finset PyObj
  succeed_test_specs : Finset PyObj
deriving DecidableEq

/-- `BaseResult.stop()`: `self._should_stop = True`. -/
def BaseResult.stop (r : ResultState) : ResultState :=
  { r with should_stop := true }

/-- `Failfast.addOutcome` effect: when failfast is enabled and the
status is erroneous, call `self.stop()` (the traceback capture does not
touch the tracked fields). -/
def Failfast.addOutcome (r : ResultState) (status : Outcome) : ResultState :=
  if r.failfast && status.is_erroneous then BaseResult.stop r else r

/-- `StatusTracker.addOutcome` effect: `self.status_counters.inc(status)`. -/
def StatusTracker.addOutcome (r : ResultState) (status : Outcome) :
    ResultState :=
  { r with status_counters := r.status_counters.inc status }

/-- `StatusTracker.wasSuccessful`: `self.status_counters.is_successful()`. -/
def StatusTracker.wasSuccessful (r : ResultState) : Bool :=
  r.status_counters.is_successful

/-- `ErrSuccTracker.addOutcome` effect: an erroneous status adds the
computed `test_name` string to the error set; any other status executes
`self._succeed_test_specs.add(get_test_name)`, adding the function
object itself. -/
def ErrSuccTracker.addOutcome (r : ResultState) (test_name : String)
    (status : Outcome) : ResultState :=
  if status.is_erroneous then
    { r with error_test_specs :=
        insert (PyObj.str test_name) r.error_test_specs }
  else
    { r with succeed_test_specs :=
        insert PyObj.getTestNameFunc r.succeed_test_specs }

/-- `RunProgress.startTest` effect: `self._tests_run += 1`. -/
def RunProgress.startTest (r : ResultState) : ResultState :=
  { r with tests_run := r.tests_run + 1 }

/-- `HTestResult.addOutcome`: each mixin calls `super().addOutcome`
before its own effect, so along the MRO (Walltime,
CheckCWDDidNotChanged, Failfast, RunProgress, StatusTracker,
ErrSuccTracker, TestExecStopwatch, CaptureStdio, BaseResult) the
effects apply in the order ErrSuccTracker, StatusTracker, Failfast. -/
def HTestResult.addOutcome (r : ResultState) (test_name : String)
    (status : Outcome) : ResultState :=
  Failfast.addOutcome
    (StatusTracker.addOutcome
      (ErrSuccTracker.addOutcome r test_name status) status) status

/-- `HTestResultServer.addOutcome`: same effects in the same order (the
server MRO is Walltime, RunProgress, Failfast, StatusTracker,
ErrSuccTracker, BaseResult). -/
def HTestResultServer.addOutcome (r : ResultState) (test_name : String)
    (status : Outcome) : ResultState :=
  Failfast.addOutcome
    (StatusTracker.addOutcome
      (ErrSuccTracker.addOutcome r test_name status) status) status

/-- The tracked fields as `HTestResult.__init__` and
`HTestResultServer.__init__` leave them (both are built from the same
`result_options` in `cli._do_main`): not stopped, the given failfast
flag, zero tests run, all counters zero, both sets empty. -/
def initResultState (failfast : Bool) (total_tests : Nat) : ResultState :=
  { should_stop := false, failfast := failfast, tests_run := 0,
    total_tests := total_tests, status_counters := StatusCounters.init,
    error_test_specs := ∅, succeed_test_specs := ∅ }

/-- One runnable test: its full dotted name and the terminal outcomes
it records when run (one per `addOutcome` call; a plain test records
exactly one, a test with sub-tests records one per sub-case). -/
structure TestCaseRun where
  name : String
  outcomes : List Outcome
deriving DecidableEq

/-- `test_case.run(result)` against the `HTestResult` stack:
`startTest`, then one `addOutcome` per recorded outcome; `stopTest`
touches only the stopwatch, the capture buffers and the printer. -/
def runTestCase (r : ResultState) (t : TestCaseRun) : ResultState :=
  t.outcomes.foldl (fun r' o => HTestResult.addOutcome r' t.name o)
    (RunProgress.startTest r)

/-- `run_monoproc_tests` (`runner.py`): run each test in order, checking
`result.shouldStop` before each one and breaking when it is set. -/
def run_monoproc_tests (tests : List TestCaseRun) (r : ResultState) :
    ResultState :=
  match tests with
  | [] => r
  | t :: ts =>
    if r.should_stop then r else run_monoproc_tests ts (runTestCase r t)

/-- The names of the tests `run_monoproc_tests` starts, in order. -/
def run_monoproc_started (tests : List TestCaseRun) (r : ResultState) :
    List String :=
  match tests with
  | [] => []
  | t :: ts =>
    if r.should_stop then []
    else t.name :: run_monoproc_started ts (runTestCase r t)

/-! ## Concurrent runner (`runner.py`) -/

/-- `TestResultMsg` restricted to the fields that feed the tracked
state: the test name and the ordered statuses of its `SubtestResult`s
(stdout, stderr, total time, error payloads and skip reasons do not
reach the counters or the sets). -/
structure TestResultMsgM where
  test_name : String
  results : List Outcome
deriving DecidableEq

/-- The message an `HTestResultClient` worker sends for a test: the
sub-results in recording order, under the test's full name. -/
def HTestResultClient.msgFor (t : TestCaseRun) : TestResultMsgM :=
  ⟨t.name, t.outcomes⟩

/-- `HTestResultServer.process_result`: replay each received
`SubtestResult` through `addOutcome` under the message's test name
(`stopTest` afterwards only prints the captured output). -/
def HTestResultServer.process_result (r : ResultState)
    (msg : TestResultMsgM) : ResultState :=
  msg.results.foldl
    (fun r' o => HTestResultServer.addOutcome r' msg.test_name o) r

/-- The receive loop of `run_concurrent_tests` specialized to one
worker: the state parameter is the one right after `start_test` for
`cur` (the test in flight).  On completion the server processes the
result message, then either dispatches the next test — when one remains
and `result.shouldStop` is unset — or sends the stop sentinel. -/
def concurrentLoop1 :
    List TestCaseRun → TestCaseRun → ResultState → ResultState
  | [], cur, r =>
    HTestResultServer.process_result r (HTestResultClient.msgFor cur)
  | u :: us, cur, r =>
    let r1 := HTestResultServer.process_result r (HTestResultClient.msgFor cur)
    if r1.should_stop then r1
    else concurrentLoop1 us u (RunProgress.startTest r1)

/-- `run_concurrent_tests` with `njobs = 1`: the pool is bootstrapped
with the first test (`start_test` sends it and calls
`result.startTest`), and with a single worker completions arrive in
dispatch order. -/
def run_concurrent_tests_1 (tests : List TestCaseRun) (r : ResultState) :
    ResultState :=
  match tests with
  | [] => r
  | t :: ts => concurrentLoop1 ts t (RunProgress.startTest r)

/-- Scheduler-side state of `run_concurrent_tests` with any number of
workers: the server result object and `t`, the index of the next
not-yet-dispatched test. -/
structure SchedState where
  result : ResultState
  next : Nat
deriving DecidableEq

/-- What the scheduler sends on a worker's channel after processing one
completed `TestResultMsg`: the next test (`start_test`) or the stop
sentinel (`stop_worker` sends `None`). -/
inductive SchedAction where
  | dispatch (testIdx : Nat) (worker : Nat)
  | stopSentinel (worker : Nat)
deriving DecidableEq

/-- A completion event: worker `worker` reports the `TestResultMsg` of
the test it was running.  The order of these events across workers is
arbitrary (it depends on relative execution speed). -/
structure Completion where
  worker : Nat
  msg : TestResultMsgM
deriving DecidableEq

/-- One iteration of the scheduler's receive loop in
`run_concurrent_tests`: process the received result, then `start_test`
the next test on that worker's channel if some test is not yet
dispatched and `result.shouldStop` is unset, otherwise `stop_worker`. -/
def schedStep (ntest : Nat) (s : SchedState) (c : Completion) :
    SchedState × SchedAction :=
  let r1 := HTestResultServer.process_result s.result c.msg
  if s.next < ntest && !r1.should_stop then
    (⟨RunProgress.startTest r1, s.next + 1⟩, .dispatch s.next c.worker)
  else
    (⟨r1, s.next⟩, .stopSentinel c.worker)

/-- Run the scheduler's receive loop over a sequence of completion
events, collecting the action taken on each. -/
def schedRun (ntest : Nat) : SchedState → List Completion → List SchedAction
  | _, [] => []
  | s, c :: cs =>
    (schedStep ntest s c).2 :: schedRun ntest (schedStep ntest s c).1 cs

/-! ## CaptureStdio (`unittestresultlib.py`) -/

/-- A value the process-global stream variables can hold: the original
streams or one of `CaptureStdio`'s per-test buffers. -/
inductive StreamRef where
  | origStdout
  | origStderr
  | stdoutBuffer
  | stderrBuffer
deriving DecidableEq, Repr

/-- The process-global stream variables `sys.stdout` / `sys.stderr`. -/
structure Stdio where
  sys_stdout : StreamRef
  sys_stderr : StreamRef
deriving DecidableEq, Repr

/-- `CaptureStdio.__init__`: stores the buffering flag and the streams
current at construction time (`self._original_stdout = sys.stdout`,
`self._original_stderr = sys.stderr`). -/
structure CaptureStdio where
  buffer : Bool
  _original_stdout : StreamRef
  _original_stderr : StreamRef
deriving DecidableEq, Repr

/-- Build a `CaptureStdio` from the globals at construction time. -/
def CaptureStdio.init (buffer : Bool) (io : Stdio) : CaptureStdio :=
  ⟨buffer, io.sys_stdout, io.sys_stderr⟩

/-- `CaptureStdio._setupStdout`: point the globals at the buffers. -/
def CaptureStdio.setupStdout (_c : CaptureStdio) (io : Stdio) : Stdio :=
  { io with sys_stdout := .stdoutBuffer, sys_stderr := .stderrBuffer }

/-- `CaptureStdio._restoreStdout`: restore the saved globals. -/
def CaptureStdio.restoreStdout (c : CaptureStdio) (io : Stdio) : Stdio :=
  { io with sys_stdout := c._original_stdout,
            sys_stderr := c._original_stderr }

/-- `CaptureStdio.startTest`: redirect the globals when buffering. -/
def CaptureStdio.startTest (c : CaptureStdio) (io : Stdio) : Stdio :=
  if c.buffer then c.setupStdout io else io

/-- Exceptions that layers above `CaptureStdio` in the `stopTest`
delegation chain can raise. -/
inductive StopTestExc where
  /-- `RuntimeError("working directory changed during test")` raised by
  `CheckCWDDidNotChanged.stopTest`. -/
  | cwdChanged
  /-- An exception escaping `HTestResult.stopTest`'s `print_ios`. -/
  | printerError
deriving DecidableEq, Repr

/-- The `stopTest` delegation chain of `HTestResult` as it affects the
global streams.  Each mixin calls `super().stopTest` before its own
code, so the innermost effect — `CaptureStdio`'s
read-buffers-then-`_restoreStdout` — runs first, then
`TestExecStopwatch`'s `split()`, then `CheckCWDDidNotChanged`'s
working-directory check (which raises when the test changed the
directory), then `HTestResult`'s `print_ios` (which may itself raise). -/
def HTestResult.stopTestStreams (c : CaptureStdio)
    (cwd_changed printer_raises : Bool) (io : Stdio) :
    Stdio × Option StopTestExc :=
  let io1 := if c.buffer then c.restoreStdout io else io
  if cwd_changed then (io1, some .cwdChanged)
  else if printer_raises then (io1, some .printerError)
  else (io1, none)

/-! ## Collection-time reordering (`cli.py`) -/

/-- An entry of the filtered collection traversed by
`reported_collect`. -/
inductive CollectEntry where
  | skipped (test_spec reason : String)
  | test (name : String)
deriving DecidableEq

/-- Loop body of `reported_collect`: a `SkippedTestSpec` is only
reported; a collected name present in `previous_errors` (the persisted
failure list of a prior run) is inserted at position 0 of the queue,
any other collected name is appended at the end. -/
def reported_collect_step (previous_errors : Option (List String))
    (test_names : List String) (entry : CollectEntry) : List String :=
  match entry with
  | .skipped _ _ => test_names
  | .test name =>
    match previous_errors with
    | some prev =>
      if name ∈ prev then name :: test_names else test_names ++ [name]
    | none => test_names ++ [name]

/-- The work queue `reported_collect` returns (and `cli._do_main` hands
to the runner): the collection folded through `reported_collect_step`
starting from the empty queue. -/
def reported_collect_names (collection : List CollectEntry)
    (previous_errors : Option (List String)) : List String :=
  collection.foldl (reported_collect_step previous_errors) []

theorem applyNonStartOp_splits_count_attr (s : StopWatch) (op : NonStartOp)
    (h : s._splits_count = none) :
    (applyNonStartOp s op)._splits_count = none := by
  cases op with
  | reset => simpa [applyNonStartOp, StopWatch.reset] using h
  | split t =>
    unfold applyNonStartOp StopWatch.split
    cases hst : s.is_started with
    | false => simpa using h
    | true =>
      cases hla : s._last_split_at with
      | none => simpa using h
      | some a => simp [h]

theorem split_nonneg {b a : Int} {s : StopWatch} (hs : s.Nonneg b a)
    {t : Int} (hat : a ≤ t) :
    (s.split t).2 = none ∧ (s.split t).1.Nonneg b t := by
  obtain ⟨hb, ha, hba, hc, hlast, htot⟩ := hs
  obtain ⟨c, hc⟩ := Option.isSome_iff_exists.mp hc
  have hstarted : s.is_started = true := by
    simp [StopWatch.is_started, hb]
  cases htt : s._total_split_time with
  | none =>
    simp only [StopWatch.split, hstarted, Bool.not_true, Bool.false_eq_true,
      if_false, ha, hc, htt]
    refine ⟨trivial, hb, rfl, by omega, by simp, ?_, ?_⟩
    · intro v hv
      simp only [Option.some.injEq] at hv
      omega
    · intro v hv
      simp only [Option.some.injEq] at hv
      omega
  | some tt =>
    have h0 : (0 : Int) ≤ tt := htot tt htt
    simp only [StopWatch.split, hstarted, Bool.not_true, Bool.false_eq_true,
      if_false, ha, hc, htt]
    refine ⟨trivial, hb, rfl, by omega, by simp, ?_, ?_⟩
    · intro v hv
      simp only [Option.some.injEq] at hv
      omega
    · intro v hv
      simp only [Option.some.injEq] at hv
      omega

theorem splitMany_nonneg (ts : List Int) :
    ∀ (s : StopWatch) (b a : Int), s.Nonneg b a →
      List.Chain (· ≤ ·) a ts →
      (s.splitMany ts).2 = none ∧
        ∃ a', a ≤ a' ∧ (s.splitMany ts).1.Nonneg b a' := by
  induction ts with
  | nil =>
    intro s b a hs _
    exact ⟨rfl, a, le_refl a, hs⟩
  | cons t rest ih =>
    intro s b a hs hchain
    cases hchain with
    | cons hat hrest =>
      obtain ⟨hok, hinv⟩ := split_nonneg hs hat
      unfold StopWatch.splitMany
      cases hsp : s.split t with
      | mk s' e =>
        rw [hsp] at hok hinv
        simp only at hok hinv
        subst hok
        obtain ⟨hrok, a', ha', hinv'⟩ := ih s' b t hinv hrest
        exact ⟨hrok, a', le_trans hat ha', hinv'⟩

/-- C6: `wasSuccessful()`/`is_successful()` is true iff `fail_count`,
`error_count` and `xpass_count` are all zero, irrespective of the other
counters (`pass`, `skip`, `xfail`). -/
theorem is_successful_iff_no_erroneous_counts (c : StatusCounters) :
    c.is_successful = true ↔
      c.fail_count = 0 ∧ c.error_count = 0 ∧ c.xpass_count = 0 := by
  unfold StatusCounters.is_successful
  constructor
  · intro h
    simp only [Bool.and_eq_true, beq_iff_eq] at h
    omega
  · intro ⟨h1, h2, h3⟩
    simp [h1, h2, h3]

/-- C9: `StopWatch.start()` raises exactly when the stopwatch is already
started, and `StopWatch.split()` raises exactly when it is not started;
in both error cases the stopwatch state is left unchanged (each method
checks its precondition before any mutation). -/
theorem stopwatch_start_split_error_iff (s : StopWatch) (now : Int)
    (hwf : s.WF) :
    ((s.start now).2 ≠ none ↔ s.is_started = true) ∧
    ((s.start now).2 ≠ none → (s.start now).1 = s) ∧
    ((s.split now).2 ≠ none ↔ s.is_started = false) ∧
    ((s.split now).2 ≠ none → (s.split now).1 = s) := by
  cases hst : s.is_started with
  | true =>
    obtain ⟨hla, hsc⟩ := hwf hst
    obtain ⟨a, ha⟩ := Option.isSome_iff_exists.mp hla
    obtain ⟨c, hc⟩ := Option.isSome_iff_exists.mp hsc
    refine ⟨?_, ?_, ?_, ?_⟩ <;>
      simp [StopWatch.start, StopWatch.split, hst, ha, hc]
  | false =>
    refine ⟨?_, ?_, ?_, ?_⟩ <;>
      simp [StopWatch.start, StopWatch.split, hst]

/-- Witness for C9 at the freshly constructed stopwatch and instant 0. -/
theorem stopwatch_start_split_error_iff_witness :
    StopWatch.WF StopWatch.init ∧
    (((StopWatch.init.start 0).2 ≠ none ↔ StopWatch.init.is_started = true) ∧
     ((StopWatch.init.start 0).2 ≠ none →
       (StopWatch.init.start 0).1 = StopWatch.init) ∧
     ((StopWatch.init.split 0).2 ≠ none ↔ StopWatch.init.is_started = false) ∧
     ((StopWatch.init.split 0).2 ≠ none →
       (StopWatch.init.split 0).1 = StopWatch.init)) :=
  ⟨by unfold StopWatch.WF; decide,
    stopwatch_start_split_error_iff StopWatch.init 0
      (by unfold StopWatch.WF; decide)⟩

/-- C10 counterexample: a stopwatch that was started once and then
`reset()` has not been started since its last `reset()`, yet reading
`splits_count` does not raise AttributeError — it returns the stale
value 0 that `start()` assigned, because `reset()` re-initializes
`_tick_count` rather than `_splits_count`. -/
theorem splits_count_after_start_reset :
    (StopWatch.init.start 0).2 = none ∧
    ((StopWatch.init.start 0).1.reset).is_started = false ∧
    ((StopWatch.init.start 0).1.reset).splits_count = .ok 0 :=
  ⟨rfl, rfl, rfl⟩

/-- C10 (amended): reading `splits_count` of a stopwatch that has never
been started since construction raises AttributeError, because
`reset()` initializes a field named `_tick_count` while `splits_count`
reads `_splits_count`, which only `start()` assigns; any sequence of
`reset()`/`split()` calls on a fresh stopwatch leaves it undefined. -/
theorem splits_count_attributeError_before_first_start
    (ops : List NonStartOp) :
    (ops.foldl applyNonStartOp StopWatch.init).splits_count
      = .error .attributeError := by
  have h : ∀ (l : List NonStartOp) (s : StopWatch), s._splits_count = none →
      (l.foldl applyNonStartOp s)._splits_count = none := by
    intro l
    induction l with
    | nil => intro s hs; exact hs
    | cons op rest ih =>
      intro s hs
      exact ih _ (applyNonStartOp_splits_count_attr s op hs)
  have h0 := h ops StopWatch.init rfl
  simp [StopWatch.splits_count, h0]

/-- C4 counterexample: `StopWatch` reads `datetime.utcnow()`, the system
wall clock.  If the clock reads 10 at `start()` and (after a backward
clock adjustment) 5 at `split()`, the recorded durations
`last_split_time`, `total_split_time` and `total_time` are all -5,
i.e. negative — refuting the claim that a backward adjustment never
yields a negative recorded duration. -/
theorem stopwatch_negative_duration_on_clock_backstep :
    (StopWatch.init.start 10).2 = none ∧
    ((StopWatch.init.start 10).1.split 5).2 = none ∧
    ((StopWatch.init.start 10).1.split 5).1.last_split_time = some (-5) ∧
    ((StopWatch.init.start 10).1.split 5).1.total_split_time = some (-5) ∧
    ((StopWatch.init.start 10).1.split 5).1.total_time 5 = -5 := by decide

/-- C4 (amended): all durations are derived from `datetime.utcnow()`
reads; whenever the successive clock reads are non-decreasing (as they
are while the system clock is not stepped backwards), every recorded
duration (`last_split_time`, `total_split_time`, `total_time`) is
non-negative. -/
theorem stopwatch_durations_nonneg_of_monotone_clock (t0 : Int)
    (ts : List Int) (now : Int) (hchain : List.Chain (· ≤ ·) t0 ts)
    (ht0 : t0 ≤ now) :
    ((StopWatch.init.start t0).2 = none) ∧
    (((StopWatch.init.start t0).1.splitMany ts).2 = none) ∧
    (∀ v, ((StopWatch.init.start t0).1.splitMany ts).1.last_split_time
      = some v → 0 ≤ v) ∧
    (∀ v, ((StopWatch.init.start t0).1.splitMany ts).1.total_split_time
      = some v → 0 ≤ v) ∧
    0 ≤ ((StopWatch.init.start t0).1.splitMany ts).1.total_time now := by
  have hstart : (StopWatch.init.start t0).1.Nonneg t0 t0 := by
    simp [StopWatch.start, StopWatch.init, StopWatch.is_started,
      StopWatch.Nonneg]
  obtain ⟨hok, a', ha', hb', hla', hba', hsc', hlast', htot'⟩ :=
    splitMany_nonneg ts _ t0 t0 hstart hchain
  refine ⟨by simp [StopWatch.start, StopWatch.init, StopWatch.is_started],
    hok, ?_, ?_, ?_⟩
  · intro v hv
    exact hlast' v hv
  · intro v hv
    have hstarted :
        ((StopWatch.init.start t0).1.splitMany ts).1.is_started = true := by
      simp [StopWatch.is_started, hb']
    rw [StopWatch.total_split_time, hstarted] at hv
    exact htot' v (by simpa using hv)
  · simp only [StopWatch.total_time, hb']
    omega

/-- Witness for C4 (amended) with clock reads 0, 2, 3 and final read 5. -/
theorem stopwatch_durations_nonneg_of_monotone_clock_witness :
    List.Chain (· ≤ ·) (0 : Int) [2, 3] ∧ (0 : Int) ≤ 5 ∧
    (((StopWatch.init.start 0).2 = none) ∧
     (((StopWatch.init.start 0).1.splitMany [2, 3]).2 = none) ∧
     (∀ v, ((StopWatch.init.start 0).1.splitMany [2, 3]).1.last_split_time
       = some v → 0 ≤ v) ∧
     (∀ v, ((StopWatch.init.start 0).1.splitMany [2, 3]).1.total_split_time
       = some v → 0 ≤ v) ∧
     0 ≤ ((StopWatch.init.start 0).1.splitMany [2, 3]).1.total_time 5) :=
  ⟨by norm_num [List.chain_cons], by decide,
    stopwatch_durations_nonneg_of_monotone_clock 0 [2, 3] 5
      (by norm_num [List.chain_cons]) (by decide)⟩

theorem StatusCounters.total_inc (c : StatusCounters) (o : Outcome) :
    (c.inc o).total = c.total + 1 := by
  cases o <;> simp [StatusCounters.inc, StatusCounters.total] <;> omega

/-- `HTestResultServer.addOutcome` and `HTestResult.addOutcome` perform
the same state change (they are the same composition of mixin effects). -/
theorem server_addOutcome_eq :
    HTestResultServer.addOutcome = HTestResult.addOutcome := rfl

/-- Full description of the state change of one `addOutcome` call. -/
theorem HTestResult.addOutcome_spec (r : ResultState) (tn : String)
    (o : Outcome) :
    HTestResult.addOutcome r tn o =
      { r with
        should_stop :=
          if r.failfast && o.is_erroneous then true else r.should_stop,
        status_counters := r.status_counters.inc o,
        error_test_specs :=
          if o.is_erroneous then insert (PyObj.str tn) r.error_test_specs
          else r.error_test_specs,
        succeed_test_specs :=
          if o.is_erroneous then r.succeed_test_specs
          else insert PyObj.getTestNameFunc r.succeed_test_specs } := by
  unfold HTestResult.addOutcome Failfast.addOutcome StatusTracker.addOutcome
    ErrSuccTracker.addOutcome BaseResult.stop
  cases he : o.is_erroneous <;> cases hf : r.failfast <;> simp [he, hf]

theorem foldl_addOutcome_fields (tn : String) (os : List Outcome) :
    ∀ r : ResultState,
      ((os.foldl (fun r' o => HTestResult.addOutcome r' tn o) r).failfast
        = r.failfast) ∧
      ((os.foldl (fun r' o => HTestResult.addOutcome r' tn o) r).tests_run
        = r.tests_run) ∧
      ((os.foldl (fun r' o => HTestResult.addOutcome r' tn o)
          r).status_counters.total
        = r.status_counters.total + os.length) := by
  induction os with
  | nil => intro r; simp
  | cons o os ih =>
    intro r
    obtain ⟨h1, h2, h3⟩ := ih (HTestResult.addOutcome r tn o)
    refine ⟨?_, ?_, ?_⟩
    · rw [List.foldl_cons, h1, HTestResult.addOutcome_spec]
    · rw [List.foldl_cons, h2, HTestResult.addOutcome_spec]
    · rw [List.foldl_cons, h3, HTestResult.addOutcome_spec]
      simp [StatusCounters.total_inc]
      omega

theorem foldl_addOutcome_stop_mono (tn : String) (os : List Outcome) :
    ∀ r : ResultState, r.should_stop = true →
      (os.foldl (fun r' o => HTestResult.addOutcome r' tn o) r).should_stop
        = true := by
  induction os with
  | nil => intro r h; simpa using h
  | cons o os ih =>
    intro r h
    refine ih (HTestResult.addOutcome r tn o) ?_
    simp [HTestResult.addOutcome_spec]
    exact Or.inr h

theorem foldl_addOutcome_stop_of_ff_false (tn : String) (os : List Outcome) :
    ∀ r : ResultState, r.failfast = false →
      (os.foldl (fun r' o => HTestResult.addOutcome r' tn o) r).should_stop
        = r.should_stop := by
  induction os with
  | nil => intro r _; rfl
  | cons o os ih =>
    intro r hff
    have h := ih (HTestResult.addOutcome r tn o)
      (by simp [HTestResult.addOutcome_spec, hff])
    simp only [List.foldl_cons] at h ⊢
    rw [h]
    simp [HTestResult.addOutcome_spec, hff]

theorem foldl_addOutcome_stop_of_erroneous (tn : String) (os : List Outcome) :
    ∀ r : ResultState, r.failfast = true →
      (∃ o ∈ os, o.is_erroneous = true) →
      (os.foldl (fun r' o => HTestResult.addOutcome r' tn o) r).should_stop
        = true := by
  induction os with
  | nil => intro r _ h; simp at h
  | cons o os ih =>
    intro r hff h
    rcases h with ⟨o', ho', herr⟩
    simp only [List.mem_cons] at ho'
    rcases ho' with rfl | ho'
    · refine foldl_addOutcome_stop_mono tn os (HTestResult.addOutcome r tn o') ?_
      simp [HTestResult.addOutcome_spec, hff, herr]
    · exact ih (HTestResult.addOutcome r tn o)
        (by simp [HTestResult.addOutcome_spec, hff]) ⟨o', ho', herr⟩

theorem runTestCase_failfast (r : ResultState) (t : TestCaseRun) :
    (runTestCase r t).failfast = r.failfast := by
  have h := foldl_addOutcome_fields t.name t.outcomes (RunProgress.startTest r)
  simpa [runTestCase, RunProgress.startTest] using h.1

theorem runTestCase_tests_run (r : ResultState) (t : TestCaseRun) :
    (runTestCase r t).tests_run = r.tests_run + 1 := by
  have h := foldl_addOutcome_fields t.name t.outcomes (RunProgress.startTest r)
  simpa [runTestCase, RunProgress.startTest] using h.2.1

theorem runTestCase_counters_total (r : ResultState) (t : TestCaseRun) :
    (runTestCase r t).status_counters.total
      = r.status_counters.total + t.outcomes.length := by
  have h := foldl_addOutcome_fields t.name t.outcomes (RunProgress.startTest r)
  simpa [runTestCase, RunProgress.startTest] using h.2.2

theorem runTestCase_stop_of_ff_false (r : ResultState) (t : TestCaseRun)
    (hff : r.failfast = false) :
    (runTestCase r t).should_stop = r.should_stop := by
  have h := foldl_addOutcome_stop_of_ff_false t.name t.outcomes
    (RunProgress.startTest r) (by simpa [RunProgress.startTest] using hff)
  simpa [runTestCase, RunProgress.startTest] using h

theorem runTestCase_stop_of_erroneous (r : ResultState) (t : TestCaseRun)
    (hff : r.failfast = true)
    (herr : ∃ o ∈ t.outcomes, o.is_erroneous = true) :
    (runTestCase r t).should_stop = true := by
  have h := foldl_addOutcome_stop_of_erroneous t.name t.outcomes
    (RunProgress.startTest r) (by simpa [RunProgress.startTest] using hff) herr
  simpa [runTestCase] using h

/-- C1: after the single-process run [T1 pass, T2 fail, T3 pass] the
error set is {"T2"} as the claim states, but the success set is
{get_test_name} — the function object — rather than {"T1", "T3"},
because `ErrSuccTracker.addOutcome` executes
`self._succeed_test_specs.add(get_test_name)` instead of adding the
`test_name` it computed on the previous line. -/
theorem errsucctracker_success_set_bug :
    (run_monoproc_tests
        [⟨"T1", [.pass]⟩, ⟨"T2", [.fail]⟩, ⟨"T3", [.pass]⟩]
        (initResultState false 3)).error_test_specs
      = {PyObj.str "T2"} ∧
    (run_monoproc_tests
        [⟨"T1", [.pass]⟩, ⟨"T2", [.fail]⟩, ⟨"T3", [.pass]⟩]
        (initResultState false 3)).succeed_test_specs
      = {PyObj.getTestNameFunc} ∧
    (run_monoproc_tests
        [⟨"T1", [.pass]⟩, ⟨"T2", [.fail]⟩, ⟨"T3", [.pass]⟩]
        (initResultState false 3)).succeed_test_specs
      ≠ {PyObj.str "T1", PyObj.str "T3"} := by decide

theorem run_monoproc_counts (tests : List TestCaseRun) :
    ∀ r : ResultState, r.failfast = false → r.should_stop = false →
      (∀ t ∈ tests, t.outcomes.length = 1) →
      ((run_monoproc_tests tests r).status_counters.total
          = r.status_counters.total + tests.length) ∧
      ((run_monoproc_tests tests r).tests_run
          = r.tests_run + tests.length) := by
  induction tests with
  | nil => intro r _ _ _; simp [run_monoproc_tests]
  | cons t ts ih =>
    intro r hff hstop hone
    have h1 : t.outcomes.length = 1 := hone t (by simp)
    have hr1ff : (runTestCase r t).failfast = false := by
      rw [runTestCase_failfast]; exact hff
    have hr1stop : (runTestCase r t).should_stop = false := by
      rw [runTestCase_stop_of_ff_false r t hff]; exact hstop
    have hrec := ih (runTestCase r t) hr1ff hr1stop
      (fun u hu => hone u (by simp [hu]))
    simp only [run_monoproc_tests, hstop, if_false, Bool.false_eq_true]
    constructor
    · rw [hrec.1, runTestCase_counters_total, h1]
      simp [List.length_cons]
      omega
    · rw [hrec.2, runTestCase_tests_run]
      simp [List.length_cons]
      omega

/-- C7: a single-process run of N tests with failfast disabled, each
recording exactly one terminal outcome, ends with the six status
counters summing to N and `testsRun` equal to N. -/
theorem monoproc_counts_sum_and_tests_run (tests : List TestCaseRun)
    (hone : ∀ t ∈ tests, t.outcomes.length = 1) :
    ((run_monoproc_tests tests
        (initResultState false tests.length)).status_counters.total
      = tests.length) ∧
    ((run_monoproc_tests tests (initResultState false tests.length)).tests_run
      = tests.length) := by
  have h := run_monoproc_counts tests (initResultState false tests.length)
    rfl rfl hone
  simpa [initResultState, StatusCounters.init, StatusCounters.total] using h

/-- Witness for C7 on a three-test run. -/
theorem monoproc_counts_sum_and_tests_run_witness :
    (∀ t ∈ ([⟨"T1", [.pass]⟩, ⟨"T2", [.fail]⟩, ⟨"T3", [.skip]⟩] :
        List TestCaseRun), t.outcomes.length = 1) ∧
    ((run_monoproc_tests
        [⟨"T1", [.pass]⟩, ⟨"T2", [.fail]⟩, ⟨"T3", [.skip]⟩]
        (initResultState false 3)).status_counters.total = 3) ∧
    ((run_monoproc_tests
        [⟨"T1", [.pass]⟩, ⟨"T2", [.fail]⟩, ⟨"T3", [.skip]⟩]
        (initResultState false 3)).tests_run = 3) :=
  ⟨by decide,
    monoproc_counts_sum_and_tests_run
      [⟨"T1", [.pass]⟩, ⟨"T2", [.fail]⟩, ⟨"T3", [.skip]⟩] (by decide)⟩

theorem run_monoproc_started_of_stopped (tests : List TestCaseRun)
    (r : ResultState) (h : r.should_stop = true) :
    run_monoproc_started tests r = [] := by
  cases tests <;> simp [run_monoproc_started, h]

theorem run_monoproc_started_len (tests : List TestCaseRun) :
    ∀ (i : Nat) (r : ResultState), r.failfast = true →
      ∀ (hi : i < tests.length),
      (∃ o ∈ (tests.get ⟨i, hi⟩).outcomes, o.is_erroneous = true) →
      (run_monoproc_started tests r).length ≤ i + 1 := by
  induction tests with
  | nil => intro i r _ hi; simp at hi
  | cons t ts ih =>
    intro i r hff hi herr
    cases hstop : r.should_stop with
    | true => simp [run_monoproc_started, hstop]
    | false =>
      cases i with
      | zero =>
        have hterr : ∃ o ∈ t.outcomes, o.is_erroneous = true := by
          simpa using herr
        have h1 : (runTestCase r t).should_stop = true :=
          runTestCase_stop_of_erroneous r t hff hterr
        simp [run_monoproc_started, hstop,
          run_monoproc_started_of_stopped ts _ h1]
      | succ j =>
        have hj : j < ts.length := by simpa using hi
        have herr' : ∃ o ∈ (ts.get ⟨j, hj⟩).outcomes,
            o.is_erroneous = true := by
          simpa using herr
        have hffr : (runTestCase r t).failfast = true := by
          rw [runTestCase_failfast]; exact hff
        have := ih j (runTestCase r t) hffr hj herr'
        simp only [run_monoproc_started, hstop, Bool.false_eq_true,
          if_false, List.length_cons]
        omega

theorem run_monoproc_started_take (tests : List TestCaseRun) :
    ∀ r : ResultState,
      run_monoproc_started tests r
        = (tests.map TestCaseRun.name).take
            (run_monoproc_started tests r).length := by
  induction tests with
  | nil => intro r; rfl
  | cons t ts ih =>
    intro r
    cases hstop : r.should_stop with
    | true => simp [run_monoproc_started, hstop]
    | false =>
      simp only [run_monoproc_started, hstop, Bool.false_eq_true, if_false,
        List.map_cons, List.length_cons, List.take_succ_cons,
        List.cons.injEq, true_and]
      exact ih (runTestCase r t)

theorem process_result_stop_mono (r : ResultState) (msg : TestResultMsgM)
    (h : r.should_stop = true) :
    (HTestResultServer.process_result r msg).should_stop = true := by
  unfold HTestResultServer.process_result
  rw [server_addOutcome_eq]
  exact foldl_addOutcome_stop_mono msg.test_name msg.results r h

theorem schedRun_all_sentinel (ntest : Nat) (cs : List Completion) :
    ∀ s : SchedState, s.result.should_stop = true →
      ∀ a ∈ schedRun ntest s cs, ∃ w, a = SchedAction.stopSentinel w := by
  induction cs with
  | nil => intro s _ a ha; simp [schedRun] at ha
  | cons c cs ih =>
    intro s h a ha
    have hr1 : (HTestResultServer.process_result s.result c.msg).should_stop
        = true := process_result_stop_mono _ _ h
    have hstep : schedStep ntest s c =
        (⟨HTestResultServer.process_result s.result c.msg, s.next⟩,
          SchedAction.stopSentinel c.worker) := by
      unfold schedStep
      simp [hr1]
    rw [schedRun, hstep] at ha
    simp only [List.mem_cons] at ha
    rcases ha with rfl | ha
    · exact ⟨c.worker, rfl⟩
    · exact ih ⟨HTestResultServer.process_result s.result c.msg, s.next⟩
        hr1 a ha

/-- C3: with failfast enabled, (a) in the single-process runner an
erroneous outcome recorded by the test at index i means no test of a
later index is ever started (at most i+1 tests appear in the started
list); (b) in the concurrent scheduler, from any point where the stop
flag is set, every subsequent completion is answered with the stop
sentinel — no further test is dispatched to any worker (in-flight tests
still deliver the completions being answered). -/
theorem failfast_halts_dispatch :
    (∀ (tests : List TestCaseRun) (total i : Nat)
        (hi : i < tests.length),
        (∃ o ∈ (tests.get ⟨i, hi⟩).outcomes, o.is_erroneous = true) →
        (run_monoproc_started tests
          (initResultState true total)).length ≤ i + 1) ∧
    (∀ (tests : List TestCaseRun) (r : ResultState),
        run_monoproc_started tests r
          = (tests.map TestCaseRun.name).take
              (run_monoproc_started tests r).length) ∧
    (∀ (ntest : Nat) (s : SchedState) (cs : List Completion),
        s.result.should_stop = true →
        ∀ a ∈ schedRun ntest s cs, ∃ w, a = SchedAction.stopSentinel w) :=
  ⟨fun tests total i hi herr =>
      run_monoproc_started_len tests i (initResultState true total)
        rfl hi herr,
    fun tests r => run_monoproc_started_take tests r,
    fun ntest s cs h => schedRun_all_sentinel ntest cs s h⟩

/-- Witness for C3: a failing second test stops the single-process run
at two started tests, and a stopped scheduler answers a completion with
the stop sentinel. -/
theorem failfast_halts_dispatch_witness :
    (∃ o ∈ (([⟨"T1", [.pass]⟩, ⟨"T2", [.fail]⟩, ⟨"T3", [.pass]⟩] :
        List TestCaseRun).get ⟨1, by decide⟩).outcomes,
        o.is_erroneous = true) ∧
    ((run_monoproc_started
        [⟨"T1", [.pass]⟩, ⟨"T2", [.fail]⟩, ⟨"T3", [.pass]⟩]
        (initResultState true 3)).length ≤ 2) ∧
    (run_monoproc_started
        [⟨"T1", [.pass]⟩, ⟨"T2", [.fail]⟩, ⟨"T3", [.pass]⟩]
        (initResultState true 3)
      = ((([⟨"T1", [.pass]⟩, ⟨"T2", [.fail]⟩, ⟨"T3", [.pass]⟩] :
            List TestCaseRun).map TestCaseRun.name).take
          (run_monoproc_started
            [⟨"T1", [.pass]⟩, ⟨"T2", [.fail]⟩, ⟨"T3", [.pass]⟩]
            (initResultState true 3)).length)) ∧
    ((BaseResult.stop (initResultState true 3)).should_stop = true) ∧
    (∀ a ∈ schedRun 3 ⟨BaseResult.stop (initResultState true 3), 1⟩
        [⟨0, ⟨"T1", [.pass]⟩⟩],
        ∃ w, a = SchedAction.stopSentinel w) :=
  ⟨by decide,
    failfast_halts_dispatch.1
      [⟨"T1", [.pass]⟩, ⟨"T2", [.fail]⟩, ⟨"T3", [.pass]⟩] 3 1
      (by decide) (by decide),
    failfast_halts_dispatch.2.1
      [⟨"T1", [.pass]⟩, ⟨"T2", [.fail]⟩, ⟨"T3", [.pass]⟩]
      (initResultState true 3),
    by decide,
    failfast_halts_dispatch.2.2 3
      ⟨BaseResult.stop (initResultState true 3), 1⟩
      [⟨0, ⟨"T1", [.pass]⟩⟩] (by decide)⟩

theorem concurrentLoop1_eq_monoproc (rest : List TestCaseRun) :
    ∀ (cur : TestCaseRun) (r : ResultState), r.should_stop = false →
      concurrentLoop1 rest cur (RunProgress.startTest r)
        = run_monoproc_tests (cur :: rest) r := by
  induction rest with
  | nil =>
    intro cur r hstop
    show HTestResultServer.process_result (RunProgress.startTest r)
        (HTestResultClient.msgFor cur)
      = run_monoproc_tests [cur] r
    have hpr : HTestResultServer.process_result (RunProgress.startTest r)
        (HTestResultClient.msgFor cur) = runTestCase r cur := rfl
    rw [hpr]
    simp [run_monoproc_tests, hstop]
  | cons u us ih =>
    intro cur r hstop
    have hpr : HTestResultServer.process_result (RunProgress.startTest r)
        (HTestResultClient.msgFor cur) = runTestCase r cur := rfl
    show (if (HTestResultServer.process_result (RunProgress.startTest r)
            (HTestResultClient.msgFor cur)).should_stop
          then HTestResultServer.process_result (RunProgress.startTest r)
            (HTestResultClient.msgFor cur)
          else concurrentLoop1 us u
            (RunProgress.startTest
              (HTestResultServer.process_result (RunProgress.startTest r)
                (HTestResultClient.msgFor cur))))
        = run_monoproc_tests (cur :: u :: us) r
    rw [hpr]
    have hmono : run_monoproc_tests (cur :: u :: us) r
        = run_monoproc_tests (u :: us) (runTestCase r cur) := by
      simp [run_monoproc_tests, hstop]
    rw [hmono]
    cases h1 : (runTestCase r cur).should_stop with
    | true => simp [run_monoproc_tests, h1]
    | false =>
      simp only [Bool.false_eq_true, if_false]
      rw [ih u (runTestCase r cur) h1]

/-- C2: for every test list (each test recording at least one outcome,
as real unittest test cases do), the concurrent runner with one worker
and the single-process runner, both started from the result state the
CLI builds, end with the same status counters, the same error set and
the same success set. -/
theorem concurrent_njobs1_equals_monoproc (tests : List TestCaseRun)
    (failfast : Bool) (total : Nat)
    (hne : ∀ t ∈ tests, t.outcomes ≠ []) :
    ((run_concurrent_tests_1 tests
        (initResultState failfast total)).status_counters
      = (run_monoproc_tests tests
          (initResultState failfast total)).status_counters) ∧
    ((run_concurrent_tests_1 tests
        (initResultState failfast total)).error_test_specs
      = (run_monoproc_tests tests
          (initResultState failfast total)).error_test_specs) ∧
    ((run_concurrent_tests_1 tests
        (initResultState failfast total)).succeed_test_specs
      = (run_monoproc_tests tests
          (initResultState failfast total)).succeed_test_specs) := by
  have key : run_concurrent_tests_1 tests (initResultState failfast total)
      = run_monoproc_tests tests (initResultState failfast total) := by
    cases tests with
    | nil => rfl
    | cons t ts =>
      exact concurrentLoop1_eq_monoproc ts t
        (initResultState failfast total) rfl
  rw [key]
  exact ⟨rfl, rfl, rfl⟩

/-- Witness for C2 on a two-test run with a failure. -/
theorem concurrent_njobs1_equals_monoproc_witness :
    (∀ t ∈ ([⟨"T1", [.pass]⟩, ⟨"T2", [.fail, .pass]⟩] : List TestCaseRun),
        t.outcomes ≠ []) ∧
    (((run_concurrent_tests_1 [⟨"T1", [.pass]⟩, ⟨"T2", [.fail, .pass]⟩]
        (initResultState false 2)).status_counters
      = (run_monoproc_tests [⟨"T1", [.pass]⟩, ⟨"T2", [.fail, .pass]⟩]
          (initResultState false 2)).status_counters) ∧
    ((run_concurrent_tests_1 [⟨"T1", [.pass]⟩, ⟨"T2", [.fail, .pass]⟩]
        (initResultState false 2)).error_test_specs
      = (run_monoproc_tests [⟨"T1", [.pass]⟩, ⟨"T2", [.fail, .pass]⟩]
          (initResultState false 2)).error_test_specs) ∧
    ((run_concurrent_tests_1 [⟨"T1", [.pass]⟩, ⟨"T2", [.fail, .pass]⟩]
        (initResultState false 2)).succeed_test_specs
      = (run_monoproc_tests [⟨"T1", [.pass]⟩, ⟨"T2", [.fail, .pass]⟩]
          (initResultState false 2)).succeed_test_specs)) :=
  ⟨by decide,
    concurrent_njobs1_equals_monoproc
      [⟨"T1", [.pass]⟩, ⟨"T2", [.fail, .pass]⟩] false 2 (by decide)⟩

/-- C5: with buffering on, once `startTest` has captured the streams,
the `stopTest` delegation chain always leaves `sys.stdout` and
`sys.stderr` equal to the streams saved at construction — whether it
returns normally or a later layer (the working-directory check of
`CheckCWDDidNotChanged`, or the printer call in
`HTestResult.stopTest`) raises. -/
theorem capture_stdio_restores_streams (c : CaptureStdio)
    (hbuf : c.buffer = true) (io : Stdio)
    (cwd_changed printer_raises : Bool) :
    ((HTestResult.stopTestStreams c cwd_changed printer_raises
        (CaptureStdio.startTest c io)).1.sys_stdout = c._original_stdout) ∧
    ((HTestResult.stopTestStreams c cwd_changed printer_raises
        (CaptureStdio.startTest c io)).1.sys_stderr = c._original_stderr) := by
  cases cwd_changed <;> cases printer_raises <;>
    simp [HTestResult.stopTestStreams, CaptureStdio.startTest,
      CaptureStdio.setupStdout, CaptureStdio.restoreStdout, hbuf]

/-- Witness for C5: both exception layers firing, starting from the
original streams. -/
theorem capture_stdio_restores_streams_witness :
    ((CaptureStdio.init true ⟨.origStdout, .origStderr⟩).buffer = true) ∧
    (((HTestResult.stopTestStreams
        (CaptureStdio.init true ⟨.origStdout, .origStderr⟩) true true
        (CaptureStdio.startTest
          (CaptureStdio.init true ⟨.origStdout, .origStderr⟩)
          ⟨.origStdout, .origStderr⟩)).1.sys_stdout
      = (CaptureStdio.init true ⟨.origStdout, .origStderr⟩)._original_stdout) ∧
    ((HTestResult.stopTestStreams
        (CaptureStdio.init true ⟨.origStdout, .origStderr⟩) true true
        (CaptureStdio.startTest
          (CaptureStdio.init true ⟨.origStdout, .origStderr⟩)
          ⟨.origStdout, .origStderr⟩)).1.sys_stderr
      = (CaptureStdio.init true ⟨.origStdout, .origStderr⟩)._original_stderr)) :=
  ⟨by decide,
    capture_stdio_restores_streams
      (CaptureStdio.init true ⟨.origStdout, .origStderr⟩) (by decide)
      ⟨.origStdout, .origStderr⟩ true true⟩

theorem reported_collect_foldl_split (prev : List String) :
    ∀ (collection : List CollectEntry) (front back : List String),
      (∀ x ∈ front, x ∈ prev) → (∀ x ∈ back, x ∉ prev) →
      ∃ front' back',
        collection.foldl (reported_collect_step (some prev)) (front ++ back)
            = front' ++ back' ∧
          (∀ x ∈ front', x ∈ prev) ∧ (∀ x ∈ back', x ∉ prev) := by
  intro collection
  induction collection with
  | nil =>
    intro front back hf hb
    exact ⟨front, back, rfl, hf, hb⟩
  | cons e es ih =>
    intro front back hf hb
    cases e with
    | skipped spec reason =>
      simpa [reported_collect_step] using ih front back hf hb
    | test name =>
      by_cases hmem : name ∈ prev
      · have step : reported_collect_step (some prev) (front ++ back)
            (CollectEntry.test name) = (name :: front) ++ back := by
          simp [reported_collect_step, hmem]
        have hf' : ∀ x ∈ name :: front, x ∈ prev := by
          intro x hx
          rcases List.mem_cons.mp hx with rfl | hx
          · exact hmem
          · exact hf x hx
        simpa [List.foldl_cons, step] using ih (name :: front) back hf' hb
      · have step : reported_collect_step (some prev) (front ++ back)
            (CollectEntry.test name) = front ++ (back ++ [name]) := by
          simp [reported_collect_step, hmem]
        have hb' : ∀ x ∈ back ++ [name], x ∉ prev := by
          intro x hx
          rcases List.mem_append.mp hx with hx | hx
          · exact hb x hx
          · rcases List.mem_singleton.mp hx with rfl
            exact hmem
        simpa [List.foldl_cons, step] using ih front (back ++ [name]) hf hb'

/-- C8: the work queue built by `reported_collect` splits into a front
segment of names found in the persisted failure list followed by a back
segment of names not in it — every previously-failed collected test is
placed ahead of every other collected test. -/
theorem previously_failed_placed_first (collection : List CollectEntry)
    (prev : List String) :
    ∃ front back,
      reported_collect_names collection (some prev) = front ++ back ∧
      (∀ x ∈ front, x ∈ prev) ∧ (∀ x ∈ back, x ∉ prev) := by
  have h := reported_collect_foldl_split prev collection [] []
    (by intro x hx; simp at hx) (by intro x hx; simp at hx)
  simpa [reported_collect_names] using h

end Hunittest
